import Mathlib

/-
Verification of the SNMP updater core of temper-python (temperusb/snmp.py).

The Python module defines an Updater object holding a registry of USB
thermometer device handles (attribute devs, guarded by usb_lock), with three
entry points:
  - _initialize: rediscovers devices and replaces devs wholesale;
  - _reinitialize: best-effort closes all devices, then calls _initialize;
  - update: in test mode publishes fixed values; otherwise reads every
    device under the lock, publishes the truncated maximum and up to the
    first three truncated readings, and on any exception publishes the
    sentinel 9999 to all four OIDs and triggers _reinitialize.

The embedding below is an explicit state-passing translation.  Every external
effect (lock acquire and release, device read, device close, add_int on the
pass-persist table, write_log on syslog, device discovery) is recorded as an
event in an append-only trace.  Fallible calls are Except values.  Device
handles are modelled by the outcome of their two methods for the call under
consideration; discovery (TemperHandler().get_devices(), an external
collaborator of this module) is modelled by its outcome for the call.
Python float temperatures are modelled as rationals; int() truncation toward
zero is pyInt.
-/

/-- Observable events of one call into the Updater core, in order. -/
inductive Event where
  | lockAcquire : Event
  | lockRelease : Event
  | readTemp : Nat → Event
  | closeDev : Nat → Event
  | addInt : String → Int → Event
  | writeLog : String → Event
  | discover : Event
deriving Repr, DecidableEq

deriving instance DecidableEq for Except

/-- Model of one device handle: the outcome of get_temperature() and of
close() for the call under consideration. -/
structure Device where
  getTemperature : Except String ℚ
  close : Except String Unit
deriving Repr, DecidableEq

/-- Device whose read succeeds with value q and whose close succeeds. -/
def okDevice (q : ℚ) : Device := ⟨Except.ok q, Except.ok ()⟩

/-- Mutable state of the Updater object: the devs attribute (none when the
attribute was never assigned, i.e. discovery failed during construction
before the assignment), plus the trace of events so far. -/
structure St where
  devs : Option (List Device)
  trace : List Event
deriving Repr, DecidableEq

/-- Append one event to the trace. -/
def St.emit (s : St) (e : Event) : St := { s with trace := s.trace ++ [e] }

/-- Model of logger.write_log. -/
def St.log (s : St) (m : String) : St := s.emit (Event.writeLog m)

/-- Model of snmp_pp.add_int. -/
def St.add (s : St) (oid : String) (v : Int) : St := s.emit (Event.addInt oid v)

/-- Message of the AttributeError raised by Python when self.devs is read
before it was ever assigned (apostrophes of the CPython message elided). -/
def attrErr : String := "AttributeError: Updater object has no attribute devs"

/-- Python int() truncation toward zero of a rational reading. -/
def pyInt (q : ℚ) : ℤ := if 0 ≤ q then Rat.floor q else Rat.ceil q

/-- Python max() on a list: ValueError on the empty list, otherwise the
maximum value. -/
def pyMax : List ℚ → Except String ℚ
  | [] => Except.error "max() arg is an empty sequence"
  | x :: xs => Except.ok (xs.foldl max x)

/-- Sentinel temperature ERROR_TEMPERATURE of the source module. -/
def ERROR_TEMPERATURE : Int := 9999

/-- Model of the list comprehension
[d.get_temperature() for d in self.devs] starting at registry index i:
reads devices left to right, aborting at the first raising read. -/
def readAll (i : Nat) : List Device → St → Except String (List ℚ) × St
  | [], s => (Except.ok [], s)
  | d :: ds, s =>
    let s1 := s.emit (Event.readTemp i)
    match d.getTemperature with
    | Except.error e => (Except.error e, s1)
    | Except.ok t =>
      match readAll (i + 1) ds s1 with
      | (Except.error e, s2) => (Except.error e, s2)
      | (Except.ok ts, s2) => (Except.ok (t :: ts), s2)

/-- Model of the publishing loop of update():
for i, temperature in enumerate(temperatures[:3]):
    self.snmp_pp.add_int("9.9.13.1.3.1.3.%i" % (i+1), int(temperature)).
The argument i is the 1-based OID suffix. -/
def publishPerDevice (i : Nat) : List ℚ → St → St
  | [], s => s
  | t :: ts, s =>
    publishPerDevice (i + 1) ts (s.add ("9.9.13.1.3.1.3." ++ toString i) (pyInt t))

/-- Model of the startup logging loop of _initialize:
for i, d in enumerate(self.devs):
    self.logger.write_log("Initial temperature of device #%i: ..." % ...).
A raising read propagates out of the loop (to the except of _initialize).
The %0.1f rendering of the temperature is elided from the message. -/
def logInitialTemps (i : Nat) : List Device → St → Except String Unit × St
  | [], s => (Except.ok (), s)
  | d :: ds, s =>
    let s1 := s.emit (Event.readTemp i)
    match d.getTemperature with
    | Except.error e => (Except.error e, s1)
    | Except.ok _ =>
      logInitialTemps (i + 1) ds
        (s1.log ("Initial temperature of device #" ++ toString i ++ " degree celsius"))

/-- Model of the closing loop of _reinitialize: close each device in order;
a raising close is caught, logged and does not stop the loop. -/
def closeAll (i : Nat) : List Device → St → St
  | [], s => s
  | d :: ds, s =>
    let s1 := s.emit (Event.closeDev i)
    let s2 :=
      match d.close with
      | Except.ok _ => s1
      | Except.error e => s1.log ("Exception closing device #" ++ toString i ++ ": " ++ e)
    closeAll (i + 1) ds s2

/-- Model of Updater._initialize.  The parameter discovery is the outcome of
TemperHandler().get_devices() (the external sensor transport) for this call.
Under the lock: discover, assign devs, log the count, log initial readings;
any exception is caught and logged, leaving devs as it was if discovery
raised (the assignment never executed), and leaving the fresh devs in place
if only the logging loop raised. -/
def initDevices (discovery : Except String (List Device)) (s : St) :
    Except String Unit × St :=
  let s1 := (s.emit Event.lockAcquire).emit Event.discover
  let body : Except String Unit × St :=
    match discovery with
    | Except.error e => (Except.error e, s1)
    | Except.ok ds =>
      let s2 := { s1 with devs := some ds }
      let s3 := s2.log ("Found " ++ toString ds.length ++ " thermometer devices.")
      logInitialTemps 0 ds s3
  match body with
  | (Except.ok _, s4) => (Except.ok (), s4.emit Event.lockRelease)
  | (Except.error e, s4) =>
    (Except.ok (), (s4.log ("Exception while initializing: " ++ e)).emit Event.lockRelease)

/-- Model of Updater._reinitialize: log, then under the lock close all known
devices (the read of self.devs itself is not guarded by any try, so an
AttributeError on a never-assigned devs propagates, after the with block
releases the lock), then call _initialize. -/
def reinitDevices (discovery : Except String (List Device)) (s : St) :
    Except String Unit × St :=
  let s1 := (s.log "Reinitializing devices").emit Event.lockAcquire
  match s1.devs with
  | none => (Except.error attrErr, s1.emit Event.lockRelease)
  | some ds =>
    let s2 := (closeAll 0 ds s1).emit Event.lockRelease
    initDevices discovery s2

/-- Model of Updater.update.  In test mode, publish the four fixed values.
Otherwise, under the lock, read every device, publish int(max(...)) to the
aggregate OID and the truncated first three readings to the per-device OIDs;
any exception of that block is caught: it is logged, the sentinel 9999 is
published to all four OIDs and _reinitialize runs (whose own exceptions, the
unguarded devs read included, propagate out of update). -/
def update (testmode : Bool) (discovery : Except String (List Device)) (s : St) :
    Except String Unit × St :=
  if testmode then
    (Except.ok (),
      ((((s.add "318.1.1.1.2.2.2.0" 99).add "9.9.13.1.3.1.3.1" 97).add
          "9.9.13.1.3.1.3.2" 98).add "9.9.13.1.3.1.3.3" 99))
  else
    let attempt : Except String Unit × St :=
      let s1 := s.emit Event.lockAcquire
      match s1.devs with
      | none => (Except.error attrErr, s1.emit Event.lockRelease)
      | some ds =>
        match readAll 0 ds s1 with
        | (Except.error e, s2) => (Except.error e, s2.emit Event.lockRelease)
        | (Except.ok temperatures, s2) =>
          match pyMax temperatures with
          | Except.error e => (Except.error e, s2.emit Event.lockRelease)
          | Except.ok m =>
            let s3 := s2.add "318.1.1.1.2.2.2.0" (pyInt m)
            let s4 := publishPerDevice 1 (temperatures.take 3) s3
            (Except.ok (), s4.emit Event.lockRelease)
    match attempt with
    | (Except.ok _, s5) => (Except.ok (), s5)
    | (Except.error e, s5) =>
      let t1 := s5.log ("Exception while updating data: " ++ e)
      let t2 := t1.add "318.1.1.1.2.2.2.0" ERROR_TEMPERATURE
      let t3 := t2.add "9.9.13.1.3.1.3.1" ERROR_TEMPERATURE
      let t4 := t3.add "9.9.13.1.3.1.3.2" ERROR_TEMPERATURE
      let t5 := t4.add "9.9.13.1.3.1.3.3" ERROR_TEMPERATURE
      let t6 := t5.log "Starting reinitialize after error on update"
      reinitDevices discovery t6

/-- Writes (OID, value) extracted from a trace, in order. -/
def writesOf (tr : List Event) : List (String × Int) :=
  tr.filterMap fun e =>
    match e with
    | Event.addInt oid v => some (oid, v)
    | _ => none

/-- Value held by an OID after a sequence of writes: the last write wins;
none when the OID was never written. -/
def lastWrite (ws : List (String × Int)) (oid : String) : Option Int :=
  ws.foldl (fun acc w => if w.1 = oid then some w.2 else acc) none

/-- Value held by an OID after the writes of a trace. -/
def finalValue (tr : List Event) (oid : String) : Option Int :=
  lastWrite (writesOf tr) oid

/-- Indices of the close attempts recorded in a trace, in order. -/
def closesOf (tr : List Event) : List Nat :=
  tr.filterMap fun e =>
    match e with
    | Event.closeDev i => some i
    | _ => none

/-- Test whether an event is the log line marking a _reinitialize call. -/
def isReinitLog : Event → Bool
  | Event.writeLog m => decide (m = "Reinitializing devices")
  | _ => false

/-- Number of _reinitialize invocations recorded in a trace. -/
def reinitCount (tr : List Event) : Nat := tr.countP isReinitLog

/-- Scanner deciding whether some add_int event of a trace happens while the
lock is held (depth d of nested acquisitions at the start). -/
def someAddUnderLock : List Event → Nat → Bool
  | [], _ => false
  | Event.lockAcquire :: tr, d => someAddUnderLock tr (d + 1)
  | Event.lockRelease :: tr, d => someAddUnderLock tr (d - 1)
  | Event.addInt _ _ :: tr, d => decide (0 < d) || someAddUnderLock tr d
  | _ :: tr, d => someAddUnderLock tr d

/-- Events of the read batch over n devices starting at registry index i. -/
def readEvents : Nat → Nat → List Event
  | _, 0 => []
  | i, n + 1 => Event.readTemp i :: readEvents (i + 1) n

/-- Per-device writes produced for the readings ts, first OID suffix i. -/
def perWritesList (i : Nat) : List ℚ → List (String × Int)
  | [] => []
  | t :: ts => ("9.9.13.1.3.1.3." ++ toString i, pyInt t) :: perWritesList (i + 1) ts

/-- Events of the per-device publishing loop for the readings ts. -/
def perAddEvents (i : Nat) : List ℚ → List Event
  | [] => []
  | t :: ts =>
    Event.addInt ("9.9.13.1.3.1.3." ++ toString i) (pyInt t) :: perAddEvents (i + 1) ts

/-- Events of the closing loop over the devices ds starting at index i. -/
def closeAllEvents (i : Nat) : List Device → List Event
  | [] => []
  | d :: ds =>
    Event.closeDev i ::
      (match d.close with
       | Except.ok _ => []
       | Except.error e =>
         [Event.writeLog ("Exception closing device #" ++ toString i ++ ": " ++ e)]) ++
      closeAllEvents (i + 1) ds

/-- Outcome and events of the startup logging loop over the devices ds. -/
def initLogSpec (i : Nat) : List Device → Except String Unit × List Event
  | [] => (Except.ok (), [])
  | d :: ds =>
    match d.getTemperature with
    | Except.error e => (Except.error e, [Event.readTemp i])
    | Except.ok _ =>
      let p := initLogSpec (i + 1) ds
      (p.1,
        Event.readTemp i ::
          Event.writeLog ("Initial temperature of device #" ++ toString i ++ " degree celsius") ::
          p.2)

/-- Events of one _initialize call with the given discovery outcome. -/
def initEvents (discovery : Except String (List Device)) : List Event :=
  Event.lockAcquire :: Event.discover ::
    (match discovery with
     | Except.error e => [Event.writeLog ("Exception while initializing: " ++ e)]
     | Except.ok ds =>
       Event.writeLog ("Found " ++ toString ds.length ++ " thermometer devices.") ::
         (match initLogSpec 0 ds with
          | (Except.ok _, evs) => evs
          | (Except.error e, evs) =>
            evs ++ [Event.writeLog ("Exception while initializing: " ++ e)])) ++
    [Event.lockRelease]

/-- Registry contents after one _initialize call: unchanged when discovery
raised, wholesale replaced when it returned ds. -/
def initDevsAfter (discovery : Except String (List Device)) (old : Option (List Device)) :
    Option (List Device) :=
  match discovery with
  | Except.error _ => old
  | Except.ok ds => some ds

/-- Events of one _reinitialize call on a registry holding ds. -/
def reinitEvents (ds : List Device) (discovery : Except String (List Device)) : List Event :=
  Event.writeLog "Reinitializing devices" :: Event.lockAcquire ::
    closeAllEvents 0 ds ++ Event.lockRelease :: initEvents discovery

/-- Events of the except branch of update() on exception message e, over a
registry holding ds. -/
def failTail (e : String) (ds : List Device) (discovery : Except String (List Device)) :
    List Event :=
  Event.writeLog ("Exception while updating data: " ++ e) ::
    Event.addInt "318.1.1.1.2.2.2.0" ERROR_TEMPERATURE ::
    Event.addInt "9.9.13.1.3.1.3.1" ERROR_TEMPERATURE ::
    Event.addInt "9.9.13.1.3.1.3.2" ERROR_TEMPERATURE ::
    Event.addInt "9.9.13.1.3.1.3.3" ERROR_TEMPERATURE ::
    Event.writeLog "Starting reinitialize after error on update" ::
    reinitEvents ds discovery

/-- Events of one test-mode update() call. -/
def testEvents : List Event :=
  [Event.addInt "318.1.1.1.2.2.2.0" 99, Event.addInt "9.9.13.1.3.1.3.1" 97,
   Event.addInt "9.9.13.1.3.1.3.2" 98, Event.addInt "9.9.13.1.3.1.3.3" 99]

@[simp]
theorem St.emit_devs (s : St) (e : Event) : (s.emit e).devs = s.devs := rfl

@[simp]
theorem St.emit_trace (s : St) (e : Event) : (s.emit e).trace = s.trace ++ [e] := rfl

@[simp]
theorem St.log_eq (s : St) (m : String) : s.log m = s.emit (Event.writeLog m) := rfl

@[simp]
theorem St.add_eq (s : St) (oid : String) (v : Int) :
    s.add oid v = s.emit (Event.addInt oid v) := rfl

theorem publishPerDevice_spec (ts : List ℚ) (i : Nat) (s : St) :
    publishPerDevice i ts s = { s with trace := s.trace ++ perAddEvents i ts } := by
  induction ts generalizing i s with
  | nil => simp [publishPerDevice, perAddEvents]
  | cons t ts ih =>
    simp [publishPerDevice, perAddEvents, ih, St.emit]

theorem closeAll_spec (ds : List Device) (i : Nat) (s : St) :
    closeAll i ds s = { s with trace := s.trace ++ closeAllEvents i ds } := by
  induction ds generalizing i s with
  | nil => simp [closeAll, closeAllEvents]
  | cons d ds ih =>
    cases hc : d.close with
    | ok u => simp [closeAll, closeAllEvents, hc, ih, St.emit]
    | error e => simp [closeAll, closeAllEvents, hc, ih, St.emit]

theorem readAll_ok (ds : List Device) (qs : List ℚ) (i : Nat) (s : St)
    (h : ds.map Device.getTemperature = qs.map fun q => (Except.ok q : Except String ℚ)) :
    readAll i ds s = (Except.ok qs, { s with trace := s.trace ++ readEvents i ds.length }) := by
  induction ds generalizing qs i s with
  | nil =>
    cases qs with
    | nil => simp [readAll, readEvents]
    | cons q qs => simp at h
  | cons d ds ih =>
    cases qs with
    | nil => simp at h
    | cons q qs =>
      simp only [List.map_cons, List.cons.injEq] at h
      obtain ⟨h1, h2⟩ := h
      have hr := ih qs (i + 1) (s.emit (Event.readTemp i)) h2
      simp only [St.emit] at hr
      simp [readAll, h1, hr, readEvents, St.emit]

theorem readAll_error (ds1 : List Device) (qs1 : List ℚ) (d : Device) (e : String)
    (ds2 : List Device) (i : Nat) (s : St)
    (h1 : ds1.map Device.getTemperature = qs1.map fun q => (Except.ok q : Except String ℚ))
    (h2 : d.getTemperature = Except.error e) :
    readAll i (ds1 ++ d :: ds2) s =
      (Except.error e,
       { s with trace :=
          s.trace ++ readEvents i ds1.length ++ [Event.readTemp (i + ds1.length)] }) := by
  induction ds1 generalizing qs1 i s with
  | nil =>
    simp [readAll, h2, readEvents, St.emit]
  | cons d0 ds1 ih =>
    cases qs1 with
    | nil => simp at h1
    | cons q0 qs1 =>
      simp only [List.map_cons, List.cons.injEq] at h1
      obtain ⟨h1a, h1b⟩ := h1
      have hr := ih qs1 (i + 1) (s.emit (Event.readTemp i)) h1b
      have hidx : i + 1 + ds1.length = i + (ds1.length + 1) := by omega
      simp only [St.emit, hidx] at hr
      simp [readAll, h1a, hr, readEvents, St.emit]

theorem logInitialTemps_spec (ds : List Device) (i : Nat) (s : St) :
    logInitialTemps i ds s =
      ((initLogSpec i ds).1, { s with trace := s.trace ++ (initLogSpec i ds).2 }) := by
  induction ds generalizing i s with
  | nil => simp [logInitialTemps, initLogSpec]
  | cons d ds ih =>
    cases hd : d.getTemperature with
    | error e => simp [logInitialTemps, initLogSpec, hd, St.emit]
    | ok q => simp [logInitialTemps, initLogSpec, hd, ih, St.emit]

theorem initDevices_spec (discovery : Except String (List Device)) (s : St) :
    initDevices discovery s =
      (Except.ok (), ⟨initDevsAfter discovery s.devs, s.trace ++ initEvents discovery⟩) := by
  cases discovery with
  | error e => simp [initDevices, initEvents, initDevsAfter, St.emit]
  | ok ds =>
    simp only [initDevices, logInitialTemps_spec]
    cases hl : initLogSpec 0 ds with
    | mk r evs =>
      cases r with
      | ok u => simp [initEvents, initDevsAfter, hl, St.emit]
      | error e => simp [initEvents, initDevsAfter, hl, St.emit]

theorem reinitDevices_spec (discovery : Except String (List Device)) (s : St)
    (ds : List Device) (h : s.devs = some ds) :
    reinitDevices discovery s =
      (Except.ok (), ⟨initDevsAfter discovery (some ds), s.trace ++ reinitEvents ds discovery⟩) := by
  simp [reinitDevices, h, closeAll_spec, initDevices_spec, reinitEvents, St.emit]

theorem reinitDevices_unset (discovery : Except String (List Device)) (s : St)
    (h : s.devs = none) :
    reinitDevices discovery s =
      (Except.error attrErr,
       ⟨none, s.trace ++
         [Event.writeLog "Reinitializing devices", Event.lockAcquire, Event.lockRelease]⟩) := by
  simp [reinitDevices, h, St.emit]

theorem update_success (s : St) (ds : List Device) (qs : List ℚ) (m : ℚ)
    (discovery : Except String (List Device)) (hdevs : s.devs = some ds)
    (hok : ds.map Device.getTemperature = qs.map fun q => (Except.ok q : Except String ℚ))
    (hmax : pyMax qs = Except.ok m) :
    update false discovery s =
      (Except.ok (),
       ⟨some ds,
        s.trace ++ Event.lockAcquire :: readEvents 0 ds.length ++
          Event.addInt "318.1.1.1.2.2.2.0" (pyInt m) :: perAddEvents 1 (qs.take 3) ++
          [Event.lockRelease]⟩) := by
  have hr := readAll_ok ds qs 0 (s.emit Event.lockAcquire) hok
  simp only [St.emit] at hr
  rw [hdevs] at hr
  simp [update, hdevs, hr, hmax, publishPerDevice_spec, St.emit]

theorem update_readError (s : St) (ds1 : List Device) (qs1 : List ℚ) (d : Device)
    (e : String) (ds2 : List Device) (discovery : Except String (List Device))
    (hdevs : s.devs = some (ds1 ++ d :: ds2))
    (h1 : ds1.map Device.getTemperature = qs1.map fun q => (Except.ok q : Except String ℚ))
    (h2 : d.getTemperature = Except.error e) :
    update false discovery s =
      (Except.ok (),
       ⟨initDevsAfter discovery (some (ds1 ++ d :: ds2)),
        s.trace ++ Event.lockAcquire :: readEvents 0 ds1.length ++
          Event.readTemp ds1.length :: Event.lockRelease ::
          failTail e (ds1 ++ d :: ds2) discovery⟩) := by
  have hr := readAll_error ds1 qs1 d e ds2 0 (s.emit Event.lockAcquire) h1 h2
  simp only [St.emit, Nat.zero_add] at hr
  rw [hdevs] at hr
  simp [update, hdevs, hr, failTail, St.emit, reinitDevices_spec]

theorem update_noDevices (s : St) (discovery : Except String (List Device))
    (hdevs : s.devs = some []) :
    update false discovery s =
      (Except.ok (),
       ⟨initDevsAfter discovery (some []),
        s.trace ++ Event.lockAcquire :: Event.lockRelease ::
          failTail "max() arg is an empty sequence" [] discovery⟩) := by
  simp [update, hdevs, readAll, pyMax, failTail, St.emit, reinitDevices_spec]

theorem writesOf_append (a b : List Event) : writesOf (a ++ b) = writesOf a ++ writesOf b :=
  List.filterMap_append a b _

@[simp]
theorem writesOf_nil : writesOf [] = [] := rfl

@[simp]
theorem writesOf_cons_writeLog (m : String) (tr : List Event) :
    writesOf (Event.writeLog m :: tr) = writesOf tr := rfl

@[simp]
theorem writesOf_cons_lockAcquire (tr : List Event) :
    writesOf (Event.lockAcquire :: tr) = writesOf tr := rfl

@[simp]
theorem writesOf_cons_lockRelease (tr : List Event) :
    writesOf (Event.lockRelease :: tr) = writesOf tr := rfl

@[simp]
theorem writesOf_cons_discover (tr : List Event) :
    writesOf (Event.discover :: tr) = writesOf tr := rfl

@[simp]
theorem writesOf_cons_readTemp (i : Nat) (tr : List Event) :
    writesOf (Event.readTemp i :: tr) = writesOf tr := rfl

@[simp]
theorem writesOf_cons_closeDev (i : Nat) (tr : List Event) :
    writesOf (Event.closeDev i :: tr) = writesOf tr := rfl

@[simp]
theorem writesOf_cons_addInt (oid : String) (v : Int) (tr : List Event) :
    writesOf (Event.addInt oid v :: tr) = (oid, v) :: writesOf tr := rfl

@[simp]
theorem writesOf_readEvents (n i : Nat) : writesOf (readEvents i n) = [] := by
  induction n generalizing i with
  | zero => simp [readEvents, writesOf]
  | succ n ih => simp [readEvents, writesOf, List.filterMap_cons] at ih ⊢; exact ih _

@[simp]
theorem writesOf_perAddEvents (ts : List ℚ) (i : Nat) :
    writesOf (perAddEvents i ts) = perWritesList i ts := by
  induction ts generalizing i with
  | nil => simp [perAddEvents, perWritesList, writesOf]
  | cons t ts ih =>
    simp [perAddEvents, perWritesList, writesOf, List.filterMap_cons] at ih ⊢
    exact ih _

@[simp]
theorem writesOf_closeAllEvents (ds : List Device) (i : Nat) :
    writesOf (closeAllEvents i ds) = [] := by
  induction ds generalizing i with
  | nil => simp [closeAllEvents, writesOf]
  | cons d ds ih =>
    cases hc : d.close with
    | ok u =>
      simp [closeAllEvents, hc, writesOf, List.filterMap_cons] at ih ⊢; exact ih _
    | error e =>
      simp [closeAllEvents, hc, writesOf, List.filterMap_cons] at ih ⊢; exact ih _

@[simp]
theorem writesOf_initLogSpec (ds : List Device) (i : Nat) :
    writesOf (initLogSpec i ds).2 = [] := by
  induction ds generalizing i with
  | nil => simp [initLogSpec, writesOf]
  | cons d ds ih =>
    cases hd : d.getTemperature with
    | error e => simp [initLogSpec, hd, writesOf, List.filterMap_cons]
    | ok q =>
      simp [initLogSpec, hd, writesOf, List.filterMap_cons] at ih ⊢; exact ih _

@[simp]
theorem writesOf_initEvents (discovery : Except String (List Device)) :
    writesOf (initEvents discovery) = [] := by
  cases discovery with
  | error e => simp [initEvents, writesOf, List.filterMap_cons, List.filterMap_append]
  | ok ds =>
    have h := writesOf_initLogSpec ds 0
    cases hl : initLogSpec 0 ds with
    | mk r evs =>
      rw [hl] at h
      cases r with
      | ok u =>
        simp [initEvents, hl, writesOf, List.filterMap_cons, List.filterMap_append] at h ⊢
        exact h
      | error e =>
        simp [initEvents, hl, writesOf, List.filterMap_cons, List.filterMap_append] at h ⊢
        exact h

@[simp]
theorem writesOf_reinitEvents (ds : List Device) (discovery : Except String (List Device)) :
    writesOf (reinitEvents ds discovery) = [] := by
  simp [reinitEvents, writesOf, List.filterMap_cons, List.filterMap_append]
  constructor
  · have := writesOf_closeAllEvents ds 0
    simpa [writesOf] using this
  · have := writesOf_initEvents discovery
    simpa [writesOf] using this

theorem writesOf_failTail (e : String) (ds : List Device)
    (discovery : Except String (List Device)) :
    writesOf (failTail e ds discovery) =
      [("318.1.1.1.2.2.2.0", ERROR_TEMPERATURE), ("9.9.13.1.3.1.3.1", ERROR_TEMPERATURE),
       ("9.9.13.1.3.1.3.2", ERROR_TEMPERATURE), ("9.9.13.1.3.1.3.3", ERROR_TEMPERATURE)] := by
  have h := writesOf_reinitEvents ds discovery
  simp [failTail, writesOf, List.filterMap_cons] at h ⊢
  exact h

theorem closesOf_append (a b : List Event) : closesOf (a ++ b) = closesOf a ++ closesOf b :=
  List.filterMap_append a b _

@[simp]
theorem closesOf_nil : closesOf [] = [] := rfl

@[simp]
theorem closesOf_cons_writeLog (m : String) (tr : List Event) :
    closesOf (Event.writeLog m :: tr) = closesOf tr := rfl

@[simp]
theorem closesOf_cons_lockAcquire (tr : List Event) :
    closesOf (Event.lockAcquire :: tr) = closesOf tr := rfl

@[simp]
theorem closesOf_cons_lockRelease (tr : List Event) :
    closesOf (Event.lockRelease :: tr) = closesOf tr := rfl

@[simp]
theorem closesOf_cons_discover (tr : List Event) :
    closesOf (Event.discover :: tr) = closesOf tr := rfl

@[simp]
theorem closesOf_cons_readTemp (i : Nat) (tr : List Event) :
    closesOf (Event.readTemp i :: tr) = closesOf tr := rfl

@[simp]
theorem closesOf_cons_addInt (oid : String) (v : Int) (tr : List Event) :
    closesOf (Event.addInt oid v :: tr) = closesOf tr := rfl

@[simp]
theorem closesOf_cons_closeDev (i : Nat) (tr : List Event) :
    closesOf (Event.closeDev i :: tr) = i :: closesOf tr := rfl

@[simp]
theorem closesOf_closeAllEvents (ds : List Device) (i : Nat) :
    closesOf (closeAllEvents i ds) = List.range' i ds.length := by
  induction ds generalizing i with
  | nil => simp [closeAllEvents, closesOf]
  | cons d ds ih =>
    have hr := List.range'_succ i ds.length 1
    cases hc : d.close with
    | ok u =>
      simp [closeAllEvents, hc, closesOf, List.filterMap_cons, hr] at ih ⊢; exact ih _
    | error e =>
      simp [closeAllEvents, hc, closesOf, List.filterMap_cons, hr] at ih ⊢; exact ih _

@[simp]
theorem closesOf_readEvents (n i : Nat) : closesOf (readEvents i n) = [] := by
  induction n generalizing i with
  | zero => simp [readEvents, closesOf]
  | succ n ih => simp [readEvents, closesOf, List.filterMap_cons] at ih ⊢; exact ih _

@[simp]
theorem closesOf_perAddEvents (ts : List ℚ) (i : Nat) : closesOf (perAddEvents i ts) = [] := by
  induction ts generalizing i with
  | nil => simp [perAddEvents, closesOf]
  | cons t ts ih => simp [perAddEvents, closesOf, List.filterMap_cons] at ih ⊢; exact ih _

@[simp]
theorem closesOf_initLogSpec (ds : List Device) (i : Nat) :
    closesOf (initLogSpec i ds).2 = [] := by
  induction ds generalizing i with
  | nil => simp [initLogSpec, closesOf]
  | cons d ds ih =>
    cases hd : d.getTemperature with
    | error e => simp [initLogSpec, hd, closesOf, List.filterMap_cons]
    | ok q => simp [initLogSpec, hd, closesOf, List.filterMap_cons] at ih ⊢; exact ih _

@[simp]
theorem closesOf_initEvents (discovery : Except String (List Device)) :
    closesOf (initEvents discovery) = [] := by
  cases discovery with
  | error e => simp [initEvents, closesOf, List.filterMap_cons, List.filterMap_append]
  | ok ds =>
    have h := closesOf_initLogSpec ds 0
    cases hl : initLogSpec 0 ds with
    | mk r evs =>
      rw [hl] at h
      cases r with
      | ok u =>
        simp [initEvents, hl, closesOf, List.filterMap_cons, List.filterMap_append] at h ⊢
        exact h
      | error e =>
        simp [initEvents, hl, closesOf, List.filterMap_cons, List.filterMap_append] at h ⊢
        exact h

theorem isReinitLog_false (m : String) (h : ¬ m.length = 22) :
    isReinitLog (Event.writeLog m) = false := by
  simp only [isReinitLog, decide_eq_false_iff_not]
  rintro rfl
  exact h (by decide)

theorem isReinitLog_append_false (a b : String) (h : ¬ a.length + b.length = 22) :
    isReinitLog (Event.writeLog (a ++ b)) = false :=
  isReinitLog_false _ (by rw [String.length_append]; exact h)

@[simp]
theorem reinitCount_nil : reinitCount [] = 0 := rfl

@[simp]
theorem reinitCount_cons (e : Event) (tr : List Event) :
    reinitCount (e :: tr) = reinitCount tr + if isReinitLog e then 1 else 0 :=
  List.countP_cons _ _ _

@[simp]
theorem reinitCount_append (a b : List Event) :
    reinitCount (a ++ b) = reinitCount a + reinitCount b :=
  List.countP_append _ a b

@[simp]
theorem isReinitLog_readTemp (i : Nat) : isReinitLog (Event.readTemp i) = false := rfl

@[simp]
theorem isReinitLog_closeDev (i : Nat) : isReinitLog (Event.closeDev i) = false := rfl

@[simp]
theorem isReinitLog_addInt (oid : String) (v : Int) :
    isReinitLog (Event.addInt oid v) = false := rfl

@[simp]
theorem isReinitLog_lockAcquire : isReinitLog Event.lockAcquire = false := rfl

@[simp]
theorem isReinitLog_lockRelease : isReinitLog Event.lockRelease = false := rfl

@[simp]
theorem isReinitLog_discover : isReinitLog Event.discover = false := rfl

@[simp]
theorem isReinitLog_self : isReinitLog (Event.writeLog "Reinitializing devices") = true := rfl

@[simp]
theorem reinitCount_readEvents (n i : Nat) : reinitCount (readEvents i n) = 0 := by
  induction n generalizing i with
  | zero => simp [readEvents]
  | succ n ih => simp [readEvents, ih (i + 1)]

@[simp]
theorem reinitCount_perAddEvents (ts : List ℚ) (i : Nat) :
    reinitCount (perAddEvents i ts) = 0 := by
  induction ts generalizing i with
  | nil => simp [perAddEvents]
  | cons t ts ih => simp [perAddEvents, ih (i + 1)]

@[simp]
theorem reinitCount_closeAllEvents (ds : List Device) (i : Nat) :
    reinitCount (closeAllEvents i ds) = 0 := by
  induction ds generalizing i with
  | nil => simp [closeAllEvents]
  | cons d ds ih =>
    cases hc : d.close with
    | ok u => simp [closeAllEvents, hc, ih (i + 1)]
    | error e =>
      have hlog : isReinitLog
          (Event.writeLog ("Exception closing device #" ++ toString i ++ ": " ++ e)) = false := by
        apply isReinitLog_false
        rw [String.length_append, String.length_append, String.length_append]
        have h26 : "Exception closing device #".length = 26 := by decide
        have h2 : ": ".length = 2 := by decide
        omega
      simp [closeAllEvents, hc, ih (i + 1), hlog]

@[simp]
theorem reinitCount_initLogSpec (ds : List Device) (i : Nat) :
    reinitCount (initLogSpec i ds).2 = 0 := by
  induction ds generalizing i with
  | nil => simp [initLogSpec]
  | cons d ds ih =>
    cases hd : d.getTemperature with
    | error e => simp [initLogSpec, hd]
    | ok q =>
      have hlog : isReinitLog
          (Event.writeLog
            ("Initial temperature of device #" ++ toString i ++ " degree celsius")) = false := by
        apply isReinitLog_false
        rw [String.length_append, String.length_append]
        have h31 : "Initial temperature of device #".length = 31 := by decide
        omega
      simp [initLogSpec, hd, ih (i + 1), hlog]

@[simp]
theorem reinitCount_initEvents (discovery : Except String (List Device)) :
    reinitCount (initEvents discovery) = 0 := by
  have hexc : ∀ e : String,
      isReinitLog (Event.writeLog ("Exception while initializing: " ++ e)) = false := by
    intro e
    apply isReinitLog_append_false
    have h30 : "Exception while initializing: ".length = 30 := by decide
    omega
  cases discovery with
  | error e => simp [initEvents, hexc e]
  | ok ds =>
    have hfound : isReinitLog
        (Event.writeLog ("Found " ++ toString ds.length ++ " thermometer devices.")) = false := by
      apply isReinitLog_false
      rw [String.length_append, String.length_append]
      have h6 : "Found ".length = 6 := by decide
      have h21 : " thermometer devices.".length = 21 := by decide
      omega
    have h := reinitCount_initLogSpec ds 0
    cases hl : initLogSpec 0 ds with
    | mk r evs =>
      rw [hl] at h
      simp only at h
      cases r with
      | ok u => simp [initEvents, hl, hfound, h]
      | error e => simp [initEvents, hl, hfound, hexc e, h]

@[simp]
theorem reinitCount_reinitEvents (ds : List Device) (discovery : Except String (List Device)) :
    reinitCount (reinitEvents ds discovery) = 1 := by
  simp [reinitEvents]

theorem reinitCount_failTail (e : String) (ds : List Device)
    (discovery : Except String (List Device)) :
    reinitCount (failTail e ds discovery) = 1 := by
  have hexc : isReinitLog
      (Event.writeLog ("Exception while updating data: " ++ e)) = false := by
    apply isReinitLog_append_false
    have h31 : "Exception while updating data: ".length = 31 := by decide
    omega
  have hstart : isReinitLog
      (Event.writeLog "Starting reinitialize after error on update") = false := by decide
  simp [failTail, hexc, hstart]

theorem lastWrite_skip (ws : List (String × Int)) (oid : String) (acc : Option Int)
    (h : ∀ w ∈ ws, w.1 ≠ oid) :
    ws.foldl (fun acc w => if w.1 = oid then some w.2 else acc) acc = acc := by
  induction ws generalizing acc with
  | nil => rfl
  | cons w ws ih =>
    have hw : w.1 ≠ oid := h w (List.mem_cons_self w ws)
    simp only [List.foldl_cons, if_neg hw]
    exact ih acc fun x hx => h x (List.mem_cons_of_mem w hx)

theorem lastWrite_head (oid : String) (v : Int) (ws : List (String × Int))
    (h : ∀ w ∈ ws, w.1 ≠ oid) :
    lastWrite ((oid, v) :: ws) oid = some v := by
  simp only [lastWrite, List.foldl_cons, if_pos rfl]
  exact lastWrite_skip ws oid (some v) h

theorem foldl_lastWrite_ne_none (ws : List (String × Int)) (oid : String) (acc : Option Int)
    (h : acc ≠ none) :
    ws.foldl (fun acc w => if w.1 = oid then some w.2 else acc) acc ≠ none := by
  induction ws generalizing acc with
  | nil => exact h
  | cons w ws ih =>
    simp only [List.foldl_cons]
    by_cases hw : w.1 = oid
    · rw [if_pos hw]; exact ih _ (by simp)
    · rw [if_neg hw]; exact ih acc h

theorem lastWrite_isSome_of_mem (ws : List (String × Int)) (oid : String) (v : Int)
    (h : (oid, v) ∈ ws) :
    lastWrite ws oid ≠ none := by
  unfold lastWrite
  induction ws generalizing v with
  | nil => cases h
  | cons w ws ih =>
    rcases List.mem_cons.mp h with h1 | h2
    · subst h1
      simp only [List.foldl_cons, if_pos rfl]
      exact foldl_lastWrite_ne_none ws oid (some v) (by simp)
    · simp only [List.foldl_cons]
      by_cases hw : w.1 = oid
      · rw [if_pos hw]; exact foldl_lastWrite_ne_none ws oid _ (by simp)
      · rw [if_neg hw]; exact ih v h2

@[simp]
theorem perWritesList_length (ts : List ℚ) (i : Nat) :
    (perWritesList i ts).length = ts.length := by
  induction ts generalizing i with
  | nil => rfl
  | cons t ts ih => simp [perWritesList, ih (i + 1)]

theorem perWritesList_getElem (ts : List ℚ) (i k : Nat) :
    (perWritesList i ts)[k]? =
      ts[k]?.map fun t => (("9.9.13.1.3.1.3." ++ toString (i + k), pyInt t)) := by
  induction ts generalizing i k with
  | nil => simp [perWritesList]
  | cons t ts ih =>
    cases k with
    | zero => simp [perWritesList]
    | succ k =>
      have hidx : i + 1 + k = i + (k + 1) := by omega
      simp [perWritesList, ih (i + 1) k, hidx]

theorem perWritesList_oid (ts : List ℚ) (i : Nat) (w : String × Int)
    (h : w ∈ perWritesList i ts) :
    ∃ k, k < ts.length ∧ w.1 = "9.9.13.1.3.1.3." ++ toString (i + k) := by
  induction ts generalizing i with
  | nil => cases h
  | cons t ts ih =>
    rcases List.mem_cons.mp h with h1 | h2
    · exact ⟨0, by simp, by simp [h1]⟩
    · obtain ⟨k, hk, hoid⟩ := ih (i + 1) h2
      exact ⟨k + 1, by simp only [List.length_cons]; omega, by rw [hoid]; congr 2; omega⟩

theorem perOid_ne_agg (x : String) : ("9.9.13.1.3.1.3." ++ x) ≠ "318.1.1.1.2.2.2.0" := by
  intro h
  have hd := congrArg String.data h
  rw [String.data_append] at hd
  simp at hd

theorem le_foldl_max (x : ℚ) (xs : List ℚ) : x ≤ xs.foldl max x := by
  induction xs generalizing x with
  | nil => exact le_refl x
  | cons y ys ih => exact le_trans (le_max_left x y) (ih (max x y))

theorem mem_le_foldl_max (y : ℚ) (xs : List ℚ) (x : ℚ) (h : y ∈ xs) :
    y ≤ xs.foldl max x := by
  induction xs generalizing x with
  | nil => cases h
  | cons z zs ih =>
    rcases List.mem_cons.mp h with h1 | h2
    · subst h1
      exact le_trans (le_max_right x y) (le_foldl_max (max x y) zs)
    · exact ih (max x z) h2

theorem foldl_max_mem (xs : List ℚ) (x : ℚ) : xs.foldl max x = x ∨ xs.foldl max x ∈ xs := by
  induction xs generalizing x with
  | nil => exact Or.inl rfl
  | cons y ys ih =>
    rcases ih (max x y) with h | h
    · rcases max_choice x y with hm | hm
      · exact Or.inl (by rw [List.foldl_cons, h, hm])
      · exact Or.inr (by rw [List.foldl_cons, h, hm]; exact List.mem_cons_self y ys)
    · exact Or.inr (List.mem_cons_of_mem y h)

theorem pyMax_spec (x : ℚ) (xs : List ℚ) (m : ℚ) (h : pyMax (x :: xs) = Except.ok m) :
    m ∈ x :: xs ∧ ∀ y ∈ x :: xs, y ≤ m := by
  have hm : m = xs.foldl max x := by
    simpa [pyMax] using h.symm
  subst hm
  refine ⟨?_, ?_⟩
  · rcases foldl_max_mem xs x with h1 | h1
    · rw [h1]; exact List.mem_cons_self x xs
    · exact List.mem_cons_of_mem x h1
  · intro y hy
    rcases List.mem_cons.mp hy with h1 | h1
    · subst h1; exact le_foldl_max y xs
    · exact mem_le_foldl_max y xs x h1

theorem pyInt_nonneg (q : ℚ) (h : 0 ≤ q) : 0 ≤ pyInt q := by
  simp only [pyInt, if_pos h]
  exact Rat.le_floor.mpr (by exact_mod_cast h)

theorem reads_dichotomy (ds : List Device) :
    (∃ qs : List ℚ,
        ds.map Device.getTemperature = qs.map fun q => (Except.ok q : Except String ℚ)) ∨
    (∃ (ds1 : List Device) (qs1 : List ℚ) (d : Device) (e : String) (ds2 : List Device),
        ds = ds1 ++ d :: ds2 ∧
        ds1.map Device.getTemperature = qs1.map (fun q => (Except.ok q : Except String ℚ)) ∧
        d.getTemperature = Except.error e) := by
  induction ds with
  | nil => exact Or.inl ⟨[], rfl⟩
  | cons d ds ih =>
    cases hd : d.getTemperature with
    | error e => exact Or.inr ⟨[], [], d, e, ds, rfl, rfl, hd⟩
    | ok q =>
      rcases ih with ⟨qs, hqs⟩ | ⟨ds1, qs1, d1, e, ds2, hsp, hok, herr⟩
      · exact Or.inl ⟨q :: qs, by simp [hd, hqs]⟩
      · exact Or.inr ⟨d :: ds1, q :: qs1, d1, e, ds2, by rw [hsp]; rfl,
          by simp [hd, hok], herr⟩

theorem map_ok_mem (ds : List Device) (qs : List ℚ)
    (h : ds.map Device.getTemperature = qs.map fun q => (Except.ok q : Except String ℚ))
    (d : Device) (hd : d ∈ ds) : ∃ q ∈ qs, d.getTemperature = Except.ok q := by
  induction ds generalizing qs with
  | nil => cases hd
  | cons d0 ds ih =>
    cases qs with
    | nil => simp at h
    | cons q0 qs =>
      simp only [List.map_cons, List.cons.injEq] at h
      obtain ⟨h1, h2⟩ := h
      rcases List.mem_cons.mp hd with hd1 | hd2
      · exact ⟨q0, List.mem_cons_self q0 qs, by rw [hd1]; exact h1⟩
      · obtain ⟨q, hq, hgt⟩ := ih qs h2 hd2
        exact ⟨q, List.mem_cons_of_mem q0 hq, hgt⟩

theorem perWritesList_val (ts : List ℚ) (i : Nat) (w : String × Int)
    (h : w ∈ perWritesList i ts) : ∃ t ∈ ts, w.2 = pyInt t := by
  induction ts generalizing i with
  | nil => cases h
  | cons t ts ih =>
    rcases List.mem_cons.mp h with h1 | h2
    · exact ⟨t, List.mem_cons_self t ts, by rw [h1]⟩
    · obtain ⟨t0, ht0, hv⟩ := ih (i + 1) h2
      exact ⟨t0, List.mem_cons_of_mem t ht0, hv⟩

theorem lockAcquire_not_mem_readEvents (n i : Nat) :
    Event.lockAcquire ∉ readEvents i n := by
  induction n generalizing i with
  | zero => simp [readEvents]
  | succ n ih => simp [readEvents]; exact ih (i + 1)

theorem lockRelease_not_mem_readEvents (n i : Nat) :
    Event.lockRelease ∉ readEvents i n := by
  induction n generalizing i with
  | zero => simp [readEvents]
  | succ n ih => simp [readEvents]; exact ih (i + 1)

theorem lockAcquire_not_mem_perAddEvents (ts : List ℚ) (i : Nat) :
    Event.lockAcquire ∉ perAddEvents i ts := by
  induction ts generalizing i with
  | nil => simp [perAddEvents]
  | cons t ts ih => simp [perAddEvents]; exact ih (i + 1)

theorem lockRelease_not_mem_perAddEvents (ts : List ℚ) (i : Nat) :
    Event.lockRelease ∉ perAddEvents i ts := by
  induction ts generalizing i with
  | nil => simp [perAddEvents]
  | cons t ts ih => simp [perAddEvents]; exact ih (i + 1)

theorem initEvents_shape (discovery : Except String (List Device)) :
    ∃ tail, initEvents discovery = Event.lockAcquire :: Event.discover :: tail ∧
      closesOf tail = [] := by
  cases discovery with
  | error e =>
    exact ⟨[Event.writeLog ("Exception while initializing: " ++ e), Event.lockRelease],
      rfl, by simp [closesOf, List.filterMap_cons]⟩
  | ok ds =>
    have h := closesOf_initLogSpec ds 0
    cases hl : initLogSpec 0 ds with
    | mk r evs =>
      rw [hl] at h
      simp only at h
      cases r with
      | ok u =>
        refine ⟨Event.writeLog ("Found " ++ toString ds.length ++ " thermometer devices.") ::
          evs ++ [Event.lockRelease], by simp [initEvents, hl], ?_⟩
        simp [closesOf, List.filterMap_cons, List.filterMap_append] at h ⊢
        exact h
      | error e =>
        refine ⟨Event.writeLog ("Found " ++ toString ds.length ++ " thermometer devices.") ::
          (evs ++ [Event.writeLog ("Exception while initializing: " ++ e)]) ++
            [Event.lockRelease], by simp [initEvents, hl], ?_⟩
        simp [closesOf, List.filterMap_cons, List.filterMap_append] at h ⊢
        exact h

/-- C6: with the test-mode flag set, every update() call publishes exactly 99
to 318.1.1.1.2.2.2.0, 97 to 9.9.13.1.3.1.3.1, 98 to 9.9.13.1.3.1.3.2 and 99
to 9.9.13.1.3.1.3.3, regardless of the registry state, and performs no lock
acquisition and no device access. -/
theorem update_testmode_deterministic (s : St) (discovery : Except String (List Device)) :
    update true discovery s = (Except.ok (), ⟨s.devs, s.trace ++ testEvents⟩) ∧
    writesOf testEvents =
      [("318.1.1.1.2.2.2.0", 99), ("9.9.13.1.3.1.3.1", 97),
       ("9.9.13.1.3.1.3.2", 98), ("9.9.13.1.3.1.3.3", 99)] ∧
    Event.lockAcquire ∉ testEvents ∧ (∀ i, Event.readTemp i ∉ testEvents) := by
  refine ⟨?_, by decide, by decide, fun i => by simp [testEvents]⟩
  simp [update, testEvents, St.emit]

/-- C1 (refuting theorem): on the reachable state where discovery failed
during construction before the devs assignment (devs never assigned), a
normal-mode update() call does not return normally: the AttributeError read
of self.devs inside _reinitialize propagates out of update() after the four
sentinel publications.  This contradicts the propagation policy of the spec;
the broad except blocks of the source show absorbing all failures is the
intent, so the unguarded self.devs read in _reinitialize is a code bug. -/
theorem update_raises_on_unset_devs :
    update false (Except.ok []) ⟨none, []⟩ =
      (Except.error attrErr,
       ⟨none,
        [Event.lockAcquire, Event.lockRelease,
         Event.writeLog ("Exception while updating data: " ++ attrErr),
         Event.addInt "318.1.1.1.2.2.2.0" ERROR_TEMPERATURE,
         Event.addInt "9.9.13.1.3.1.3.1" ERROR_TEMPERATURE,
         Event.addInt "9.9.13.1.3.1.3.2" ERROR_TEMPERATURE,
         Event.addInt "9.9.13.1.3.1.3.3" ERROR_TEMPERATURE,
         Event.writeLog "Starting reinitialize after error on update",
         Event.writeLog "Reinitializing devices",
         Event.lockAcquire, Event.lockRelease]⟩) := by
  decide

/-- C10: _initialize is atomic with respect to the device list: the call
never raises; when discovery fails the registry is exactly what it was
before (previous handles retained, or still unset); when discovery succeeds
the registry is wholesale replaced by the discovered devices, even when the
subsequent initial-reading log loop fails. -/
theorem initialize_atomic_devs (discovery : Except String (List Device)) (s : St) :
    initDevices discovery s =
      (Except.ok (), ⟨initDevsAfter discovery s.devs, s.trace ++ initEvents discovery⟩) ∧
    (∀ e old, initDevsAfter (Except.error e) old = old) ∧
    (∀ ds old, initDevsAfter (Except.ok ds) old = some ds) :=
  ⟨initDevices_spec discovery s, fun _ _ => rfl, fun _ _ => rfl⟩

/-- C8: a _reinitialize over an assigned registry returns normally, gives
every device a close attempt in registry order no matter how many close
calls fail, and runs discovery afterward. -/
theorem reinit_close_isolation (discovery : Except String (List Device)) (s : St)
    (ds : List Device) (h : s.devs = some ds) :
    (reinitDevices discovery s).1 = Except.ok () ∧
    ∃ pre post,
      (reinitDevices discovery s).2.trace = s.trace ++ (pre ++ Event.discover :: post) ∧
      closesOf pre = List.range ds.length ∧
      closesOf post = [] := by
  rw [reinitDevices_spec discovery s ds h]
  obtain ⟨tail, hshape, htail⟩ := initEvents_shape discovery
  refine ⟨rfl, Event.writeLog "Reinitializing devices" :: Event.lockAcquire ::
    closeAllEvents 0 ds ++ [Event.lockRelease, Event.lockAcquire], tail, ?_, ?_, htail⟩
  · simp [reinitEvents, hshape]
  · rw [List.range_eq_range']
    simp [closesOf_append]

/-- Witness for C8: three devices of which the middle one fails to close;
devices 0, 1 and 2 all receive close attempts, in order, and discovery still
runs after them. -/
theorem reinit_close_isolation_witness :
    (reinitDevices (Except.ok [])
        ⟨some [okDevice 20, ⟨Except.ok 21, Except.error "close fail"⟩, okDevice 22], []⟩).1 =
      Except.ok () ∧
    ∃ pre post,
      (reinitDevices (Except.ok [])
          ⟨some [okDevice 20, ⟨Except.ok 21, Except.error "close fail"⟩, okDevice 22],
           []⟩).2.trace =
        [] ++ (pre ++ Event.discover :: post) ∧
      closesOf pre =
        List.range [okDevice 20, ⟨Except.ok 21, Except.error "close fail"⟩,
          okDevice 22].length ∧
      closesOf post = [] :=
  reinit_close_isolation (Except.ok [])
    ⟨some [okDevice 20, ⟨Except.ok 21, Except.error "close fail"⟩, okDevice 22], []⟩
    [okDevice 20, ⟨Except.ok 21, Except.error "close fail"⟩, okDevice 22] rfl

/-- C2: when some device read raises during a normal-mode update() over an
assigned registry, the call returns normally, the only publications of the
cycle are the sentinel 9999 to all four OIDs (so no reading of the aborted
batch is published), all four OIDs hold 9999 after the call, and
reinitialize is invoked exactly once. -/
theorem update_read_failure_sentinel (s : St) (ds : List Device)
    (discovery : Except String (List Device))
    (hdevs : s.devs = some ds)
    (hbad : ∃ d ∈ ds, ∃ e, d.getTemperature = Except.error e) :
    (update false discovery s).1 = Except.ok () ∧
    ∃ ext, (update false discovery s).2.trace = s.trace ++ ext ∧
      writesOf ext =
        [("318.1.1.1.2.2.2.0", ERROR_TEMPERATURE), ("9.9.13.1.3.1.3.1", ERROR_TEMPERATURE),
         ("9.9.13.1.3.1.3.2", ERROR_TEMPERATURE), ("9.9.13.1.3.1.3.3", ERROR_TEMPERATURE)] ∧
      finalValue ext "318.1.1.1.2.2.2.0" = some ERROR_TEMPERATURE ∧
      finalValue ext "9.9.13.1.3.1.3.1" = some ERROR_TEMPERATURE ∧
      finalValue ext "9.9.13.1.3.1.3.2" = some ERROR_TEMPERATURE ∧
      finalValue ext "9.9.13.1.3.1.3.3" = some ERROR_TEMPERATURE ∧
      reinitCount ext = 1 := by
  rcases reads_dichotomy ds with ⟨qs, hqs⟩ | ⟨ds1, qs1, d, e, ds2, hsp, hok, herr⟩
  · exfalso
    obtain ⟨d, hd, e, he⟩ := hbad
    obtain ⟨q, _, hq⟩ := map_ok_mem ds qs hqs d hd
    rw [he] at hq
    cases hq
  · subst hsp
    have hupd := update_readError s ds1 qs1 d e ds2 discovery hdevs hok herr
    rw [hupd]
    have hw : writesOf (Event.lockAcquire :: readEvents 0 ds1.length ++
        Event.readTemp ds1.length :: Event.lockRelease ::
        failTail e (ds1 ++ d :: ds2) discovery) =
        [("318.1.1.1.2.2.2.0", ERROR_TEMPERATURE), ("9.9.13.1.3.1.3.1", ERROR_TEMPERATURE),
         ("9.9.13.1.3.1.3.2", ERROR_TEMPERATURE),
         ("9.9.13.1.3.1.3.3", ERROR_TEMPERATURE)] := by
      simp [writesOf_append, writesOf_failTail]
    refine ⟨rfl, Event.lockAcquire :: readEvents 0 ds1.length ++
      Event.readTemp ds1.length :: Event.lockRelease ::
      failTail e (ds1 ++ d :: ds2) discovery, by simp, hw, ?_, ?_, ?_, ?_, ?_⟩
    · rw [finalValue, hw]; decide
    · rw [finalValue, hw]; decide
    · rw [finalValue, hw]; decide
    · rw [finalValue, hw]; decide
    · simp [reinitCount_failTail]

/-- Witness for C2: one device whose read raises; the four sentinel writes
are the only writes, the four OIDs end at 9999, and one reinitialize runs. -/
theorem update_read_failure_sentinel_witness :
    (update false (Except.ok [])
        ⟨some [⟨Except.error "io error", Except.ok ()⟩], []⟩).1 = Except.ok () ∧
    ∃ ext, (update false (Except.ok [])
        ⟨some [⟨Except.error "io error", Except.ok ()⟩], []⟩).2.trace = [] ++ ext ∧
      writesOf ext =
        [("318.1.1.1.2.2.2.0", ERROR_TEMPERATURE), ("9.9.13.1.3.1.3.1", ERROR_TEMPERATURE),
         ("9.9.13.1.3.1.3.2", ERROR_TEMPERATURE), ("9.9.13.1.3.1.3.3", ERROR_TEMPERATURE)] ∧
      finalValue ext "318.1.1.1.2.2.2.0" = some ERROR_TEMPERATURE ∧
      finalValue ext "9.9.13.1.3.1.3.1" = some ERROR_TEMPERATURE ∧
      finalValue ext "9.9.13.1.3.1.3.2" = some ERROR_TEMPERATURE ∧
      finalValue ext "9.9.13.1.3.1.3.3" = some ERROR_TEMPERATURE ∧
      reinitCount ext = 1 :=
  update_read_failure_sentinel ⟨some [⟨Except.error "io error", Except.ok ()⟩], []⟩
    [⟨Except.error "io error", Except.ok ()⟩] (Except.ok []) rfl
    ⟨⟨Except.error "io error", Except.ok ()⟩, by simp, "io error", rfl⟩

/-- C3: a normal-mode update() over a non-empty registry whose reads all
succeed returns normally and publishes, to the aggregate OID, exactly the
truncation toward zero of the maximum reading of the batch. -/
theorem update_aggregate_truncated_max (s : St) (ds : List Device) (qs : List ℚ)
    (discovery : Except String (List Device)) (hdevs : s.devs = some ds)
    (hok : ds.map Device.getTemperature = qs.map fun q => (Except.ok q : Except String ℚ))
    (hne : qs ≠ []) :
    (update false discovery s).1 = Except.ok () ∧
    ∃ ext m, (update false discovery s).2.trace = s.trace ++ ext ∧
      m ∈ qs ∧ (∀ y ∈ qs, y ≤ m) ∧
      finalValue ext "318.1.1.1.2.2.2.0" = some (pyInt m) := by
  cases qs with
  | nil => exact absurd rfl hne
  | cons x xs =>
    have hmax : pyMax (x :: xs) = Except.ok (xs.foldl max x) := rfl
    have hupd := update_success s ds (x :: xs) (xs.foldl max x) discovery hdevs hok hmax
    rw [hupd]
    obtain ⟨hmem, hle⟩ := pyMax_spec x xs (xs.foldl max x) hmax
    refine ⟨rfl, Event.lockAcquire :: readEvents 0 ds.length ++
      Event.addInt "318.1.1.1.2.2.2.0" (pyInt (xs.foldl max x)) ::
      perAddEvents 1 ((x :: xs).take 3) ++ [Event.lockRelease],
      xs.foldl max x, by simp, hmem, hle, ?_⟩
    have hw : writesOf (Event.lockAcquire :: readEvents 0 ds.length ++
        Event.addInt "318.1.1.1.2.2.2.0" (pyInt (xs.foldl max x)) ::
        perAddEvents 1 ((x :: xs).take 3) ++ [Event.lockRelease]) =
        ("318.1.1.1.2.2.2.0", pyInt (xs.foldl max x)) ::
          perWritesList 1 ((x :: xs).take 3) := by
      simp [writesOf_append]
    rw [finalValue, hw]
    apply lastWrite_head
    intro w hwmem
    obtain ⟨k, _, hoid⟩ := perWritesList_oid ((x :: xs).take 3) 1 w hwmem
    rw [hoid]
    exact perOid_ne_agg (toString (1 + k))

/-- Witness for C3: readings 21.3 and 7; the aggregate OID receives 21, the
truncated maximum. -/
theorem update_aggregate_truncated_max_witness :
    (update false (Except.ok [])
        ⟨some [okDevice ⟨213, 10, by decide, by decide⟩, okDevice 7], []⟩).1 =
      Except.ok () ∧
    ∃ ext m, (update false (Except.ok [])
        ⟨some [okDevice ⟨213, 10, by decide, by decide⟩, okDevice 7], []⟩).2.trace =
        [] ++ ext ∧
      m ∈ [(⟨213, 10, by decide, by decide⟩ : ℚ), 7] ∧
      (∀ y ∈ [(⟨213, 10, by decide, by decide⟩ : ℚ), 7], y ≤ m) ∧
      finalValue ext "318.1.1.1.2.2.2.0" = some (pyInt m) :=
  update_aggregate_truncated_max
    ⟨some [okDevice ⟨213, 10, by decide, by decide⟩, okDevice 7], []⟩
    [okDevice ⟨213, 10, by decide, by decide⟩, okDevice 7]
    [⟨213, 10, by decide, by decide⟩, 7] (Except.ok []) rfl rfl (by simp)

/-- C4: a normal-mode update() over a non-empty N-device registry whose reads
all succeed writes, besides the aggregate, exactly min(N, 3) per-device
OIDs, the k-th (0-based) being 9.9.13.1.3.1.3.(k+1) with the truncated
reading of the device at registry position k; no OID for an absent device is
written (the write list is exactly the aggregate plus those entries). -/
theorem update_per_device_mapping (s : St) (ds : List Device) (qs : List ℚ)
    (discovery : Except String (List Device)) (hdevs : s.devs = some ds)
    (hok : ds.map Device.getTemperature = qs.map fun q => (Except.ok q : Except String ℚ))
    (hne : qs ≠ []) :
    (update false discovery s).1 = Except.ok () ∧
    ds.length = qs.length ∧
    ∃ ext m, (update false discovery s).2.trace = s.trace ++ ext ∧
      pyMax qs = Except.ok m ∧
      writesOf ext =
        ("318.1.1.1.2.2.2.0", pyInt m) :: perWritesList 1 (qs.take 3) ∧
      (perWritesList 1 (qs.take 3)).length = min qs.length 3 ∧
      ∀ k, (perWritesList 1 (qs.take 3))[k]? =
        (qs.take 3)[k]?.map fun t => ("9.9.13.1.3.1.3." ++ toString (k + 1), pyInt t) := by
  cases qs with
  | nil => exact absurd rfl hne
  | cons x xs =>
    have hmax : pyMax (x :: xs) = Except.ok (xs.foldl max x) := rfl
    have hupd := update_success s ds (x :: xs) (xs.foldl max x) discovery hdevs hok hmax
    rw [hupd]
    have hlen : ds.length = (x :: xs).length := by
      have := congrArg List.length hok
      simpa using this
    refine ⟨rfl, hlen, Event.lockAcquire :: readEvents 0 ds.length ++
      Event.addInt "318.1.1.1.2.2.2.0" (pyInt (xs.foldl max x)) ::
      perAddEvents 1 ((x :: xs).take 3) ++ [Event.lockRelease],
      xs.foldl max x, by simp, hmax, ?_, ?_, ?_⟩
    · simp [writesOf_append]
    · simp only [perWritesList_length, List.length_take, List.length_cons]
      omega
    · intro k
      have h := perWritesList_getElem ((x :: xs).take 3) 1 k
      simpa [Nat.add_comm] using h

/-- Witness for C4: four devices reading 21, 22, 23, 24; exactly three
per-device OIDs are written, with values 21, 22, 23 at positions 1..3. -/
theorem update_per_device_mapping_witness :
    (update false (Except.ok [])
        ⟨some [okDevice 21, okDevice 22, okDevice 23, okDevice 24], []⟩).1 =
      Except.ok () ∧
    [okDevice 21, okDevice 22, okDevice 23, okDevice 24].length =
      [(21 : ℚ), 22, 23, 24].length ∧
    ∃ ext m, (update false (Except.ok [])
        ⟨some [okDevice 21, okDevice 22, okDevice 23, okDevice 24], []⟩).2.trace =
        [] ++ ext ∧
      pyMax [(21 : ℚ), 22, 23, 24] = Except.ok m ∧
      writesOf ext =
        ("318.1.1.1.2.2.2.0", pyInt m) :: perWritesList 1 ([(21 : ℚ), 22, 23, 24].take 3) ∧
      (perWritesList 1 ([(21 : ℚ), 22, 23, 24].take 3)).length =
        min [(21 : ℚ), 22, 23, 24].length 3 ∧
      ∀ k, (perWritesList 1 ([(21 : ℚ), 22, 23, 24].take 3))[k]? =
        ([(21 : ℚ), 22, 23, 24].take 3)[k]?.map
          fun t => ("9.9.13.1.3.1.3." ++ toString (k + 1), pyInt t) :=
  update_per_device_mapping
    ⟨some [okDevice 21, okDevice 22, okDevice 23, okDevice 24], []⟩
    [okDevice 21, okDevice 22, okDevice 23, okDevice 24]
    [(21 : ℚ), 22, 23, 24] (Except.ok []) rfl rfl (by simp)

theorem map_ok_mem_rev (ds : List Device) (qs : List ℚ)
    (h : ds.map Device.getTemperature = qs.map fun q => (Except.ok q : Except String ℚ))
    (q : ℚ) (hq : q ∈ qs) : ∃ d ∈ ds, d.getTemperature = Except.ok q := by
  induction qs generalizing ds with
  | nil => cases hq
  | cons q0 qs ih =>
    cases ds with
    | nil => simp at h
    | cons d0 ds =>
      simp only [List.map_cons, List.cons.injEq] at h
      obtain ⟨h1, h2⟩ := h
      rcases List.mem_cons.mp hq with hq1 | hq2
      · exact ⟨d0, List.mem_cons_self d0 ds, by rw [h1, hq1]⟩
      · obtain ⟨d, hd, hgt⟩ := ih ds h2 hq2
        exact ⟨d, List.mem_cons_of_mem d0 hd, hgt⟩

/-- C5 (refuting counterexample): a completed, successful single-device
update() cycle writes the aggregate OID and per-device OID 1 only; the
per-device OIDs 2 and 3 are left unwritten by the completed call. -/
theorem update_success_leaves_absent_oids_unwritten :
    (update false (Except.ok []) ⟨some [okDevice 21], []⟩).1 = Except.ok () ∧
    finalValue (update false (Except.ok []) ⟨some [okDevice 21], []⟩).2.trace
      "318.1.1.1.2.2.2.0" = some 21 ∧
    finalValue (update false (Except.ok []) ⟨some [okDevice 21], []⟩).2.trace
      "9.9.13.1.3.1.3.1" = some 21 ∧
    finalValue (update false (Except.ok []) ⟨some [okDevice 21], []⟩).2.trace
      "9.9.13.1.3.1.3.2" = none ∧
    finalValue (update false (Except.ok []) ⟨some [okDevice 21], []⟩).2.trace
      "9.9.13.1.3.1.3.3" = none := by
  decide

/-- C5 (amended): every completed update() call over an assigned registry of
N devices writes a definite integer to the aggregate OID and to per-device
OID k+1 for every k below min(N, 3); in test mode and on the failure path
all four OIDs are written, while a successful cycle with N below 3 leaves
the per-device OIDs of absent devices untouched. -/
theorem update_writes_reachable_oids (b : Bool) (s : St) (ds : List Device)
    (discovery : Except String (List Device)) (hdevs : s.devs = some ds) :
    (update b discovery s).1 = Except.ok () ∧
    ∃ ext, (update b discovery s).2.trace = s.trace ++ ext ∧
      finalValue ext "318.1.1.1.2.2.2.0" ≠ none ∧
      ∀ k < min ds.length 3,
        finalValue ext ("9.9.13.1.3.1.3." ++ toString (k + 1)) ≠ none := by
  cases b with
  | true =>
    refine ⟨by simp [update], testEvents, by simp [update, testEvents, St.emit], by decide, ?_⟩
    intro k hk
    have hk3 : k < 3 := lt_of_lt_of_le hk (Nat.min_le_right _ _)
    have h012 : k = 0 ∨ k = 1 ∨ k = 2 := by omega
    rcases h012 with rfl | rfl | rfl <;> decide
  | false =>
    rcases reads_dichotomy ds with ⟨qs, hqs⟩ | ⟨ds1, qs1, d, e, ds2, hsp, hok1, herr⟩
    · cases qs with
      | nil =>
        have hds : ds = [] := by
          cases ds with
          | nil => rfl
          | cons d0 ds0 => simp at hqs
        subst hds
        rw [update_noDevices s discovery hdevs]
        have hw : writesOf (Event.lockAcquire :: Event.lockRelease ::
            failTail "max() arg is an empty sequence" [] discovery) =
            [("318.1.1.1.2.2.2.0", ERROR_TEMPERATURE),
             ("9.9.13.1.3.1.3.1", ERROR_TEMPERATURE),
             ("9.9.13.1.3.1.3.2", ERROR_TEMPERATURE),
             ("9.9.13.1.3.1.3.3", ERROR_TEMPERATURE)] := by
          simp [writesOf_failTail]
        refine ⟨rfl, Event.lockAcquire :: Event.lockRelease ::
          failTail "max() arg is an empty sequence" [] discovery, rfl, ?_, ?_⟩
        · rw [finalValue, hw]; decide
        · intro k hk
          simp at hk
      | cons x xs =>
        have hmax : pyMax (x :: xs) = Except.ok (xs.foldl max x) := rfl
        have hupd := update_success s ds (x :: xs) (xs.foldl max x) discovery hdevs hqs hmax
        rw [hupd]
        have hlen : ds.length = (x :: xs).length := by
          have := congrArg List.length hqs
          simpa using this
        have hw : writesOf (Event.lockAcquire :: readEvents 0 ds.length ++
            Event.addInt "318.1.1.1.2.2.2.0" (pyInt (xs.foldl max x)) ::
            perAddEvents 1 ((x :: xs).take 3) ++ [Event.lockRelease]) =
            ("318.1.1.1.2.2.2.0", pyInt (xs.foldl max x)) ::
              perWritesList 1 ((x :: xs).take 3) := by
          simp [writesOf_append]
        refine ⟨rfl, Event.lockAcquire :: readEvents 0 ds.length ++
          Event.addInt "318.1.1.1.2.2.2.0" (pyInt (xs.foldl max x)) ::
          perAddEvents 1 ((x :: xs).take 3) ++ [Event.lockRelease], by simp, ?_, ?_⟩
        · rw [finalValue, hw]
          apply lastWrite_isSome_of_mem _ _ (pyInt (xs.foldl max x))
          exact List.mem_cons_self _ _
        · intro k hk
          rw [hlen] at hk
          have hk' : k < ((x :: xs).take 3).length := by
            simp only [List.length_take]
            omega
          have hg := perWritesList_getElem ((x :: xs).take 3) 1 k
          have hq : ((x :: xs).take 3)[k]? = some (((x :: xs).take 3).get ⟨k, hk'⟩) := by
            rw [List.getElem?_eq_getElem hk']
            rfl
          rw [hq] at hg
          simp only [Option.map_some'] at hg
          rw [finalValue, hw]
          apply lastWrite_isSome_of_mem _ _ (pyInt (((x :: xs).take 3).get ⟨k, hk'⟩))
          apply List.mem_cons_of_mem
          have hcomm : 1 + k = k + 1 := Nat.add_comm 1 k
          rw [hcomm] at hg
          exact List.getElem?_mem hg
    · subst hsp
      have hupd := update_readError s ds1 qs1 d e ds2 discovery hdevs hok1 herr
      rw [hupd]
      have hw : writesOf (Event.lockAcquire :: readEvents 0 ds1.length ++
          Event.readTemp ds1.length :: Event.lockRelease ::
          failTail e (ds1 ++ d :: ds2) discovery) =
          [("318.1.1.1.2.2.2.0", ERROR_TEMPERATURE),
           ("9.9.13.1.3.1.3.1", ERROR_TEMPERATURE),
           ("9.9.13.1.3.1.3.2", ERROR_TEMPERATURE),
           ("9.9.13.1.3.1.3.3", ERROR_TEMPERATURE)] := by
        simp [writesOf_append, writesOf_failTail]
      refine ⟨rfl, Event.lockAcquire :: readEvents 0 ds1.length ++
        Event.readTemp ds1.length :: Event.lockRelease ::
        failTail e (ds1 ++ d :: ds2) discovery, by simp, ?_, ?_⟩
      · rw [finalValue, hw]; decide
      · intro k hk
        have hk3 : k < 3 := lt_of_lt_of_le hk (Nat.min_le_right _ _)
        have h012 : k = 0 ∨ k = 1 ∨ k = 2 := by omega
        rw [finalValue, hw]
        rcases h012 with rfl | rfl | rfl <;> decide

/-- Witness for C5 (amended): a successful two-device cycle writes the
aggregate OID and per-device OIDs 1 and 2. -/
theorem update_writes_reachable_oids_witness :
    (update false (Except.ok []) ⟨some [okDevice 21, okDevice 22], []⟩).1 = Except.ok () ∧
    ∃ ext, (update false (Except.ok [])
        ⟨some [okDevice 21, okDevice 22], []⟩).2.trace = [] ++ ext ∧
      finalValue ext "318.1.1.1.2.2.2.0" ≠ none ∧
      ∀ k < min [okDevice 21, okDevice 22].length 3,
        finalValue ext ("9.9.13.1.3.1.3." ++ toString (k + 1)) ≠ none :=
  update_writes_reachable_oids false ⟨some [okDevice 21, okDevice 22], []⟩
    [okDevice 21, okDevice 22] (Except.ok []) rfl

/-- C7 (refuting counterexample): in a concrete successful normal-mode
update() the publications happen while the registry lock is held, not after
its release: the scanner finds an add_int event under the lock. -/
theorem update_publishes_under_lock_cex :
    (update false (Except.ok []) ⟨some [okDevice 21], []⟩).1 = Except.ok () ∧
    someAddUnderLock
      (update false (Except.ok []) ⟨some [okDevice 21], []⟩).2.trace 0 = true := by
  decide

/-- C7 (amended): in a successful normal-mode update() the whole cycle is one
lock-held critical section: the trace is lockAcquire, then a middle free of
lock events containing every publication of the cycle, then lockRelease —
the lock is released only after the last set_integer call, not before the
publications. -/
theorem update_publishes_inside_lock (s : St) (ds : List Device) (qs : List ℚ) (m : ℚ)
    (discovery : Except String (List Device)) (hdevs : s.devs = some ds)
    (hok : ds.map Device.getTemperature = qs.map fun q => (Except.ok q : Except String ℚ))
    (hmax : pyMax qs = Except.ok m) :
    ∃ mid, (update false discovery s).2.trace =
        s.trace ++ Event.lockAcquire :: mid ++ [Event.lockRelease] ∧
      Event.lockAcquire ∉ mid ∧ Event.lockRelease ∉ mid ∧
      writesOf mid = ("318.1.1.1.2.2.2.0", pyInt m) :: perWritesList 1 (qs.take 3) := by
  rw [update_success s ds qs m discovery hdevs hok hmax]
  refine ⟨readEvents 0 ds.length ++ Event.addInt "318.1.1.1.2.2.2.0" (pyInt m) ::
    perAddEvents 1 (qs.take 3), by simp, ?_, ?_, by simp [writesOf_append]⟩
  · simp [List.mem_append, lockAcquire_not_mem_readEvents ds.length 0,
      lockAcquire_not_mem_perAddEvents (qs.take 3) 1]
  · simp [List.mem_append, lockRelease_not_mem_readEvents ds.length 0,
      lockRelease_not_mem_perAddEvents (qs.take 3) 1]

/-- Witness for C7 (amended): two devices reading 21 and 22. -/
theorem update_publishes_inside_lock_witness :
    ∃ mid, (update false (Except.ok [])
        ⟨some [okDevice 21, okDevice 22], []⟩).2.trace =
        [] ++ Event.lockAcquire :: mid ++ [Event.lockRelease] ∧
      Event.lockAcquire ∉ mid ∧ Event.lockRelease ∉ mid ∧
      writesOf mid = ("318.1.1.1.2.2.2.0", pyInt (max 21 22)) ::
        perWritesList 1 ([(21 : ℚ), 22].take 3) :=
  update_publishes_inside_lock ⟨some [okDevice 21, okDevice 22], []⟩
    [okDevice 21, okDevice 22] [(21 : ℚ), 22] (max 21 22) (Except.ok []) rfl rfl rfl

/-- C9 (refuting counterexample): a sub-zero reading of -11/2 degrees is
published to the aggregate OID as the negative integer -5: the core does
write negative integers, so published values are not always non-negative or
the sentinel. -/
theorem update_publishes_negative_value :
    finalValue (update false (Except.ok [])
        ⟨some [okDevice ⟨-11, 2, by decide, by decide⟩], []⟩).2.trace
      "318.1.1.1.2.2.2.0" = some (-5) ∧ (-5 : Int) < 0 := by
  decide

/-- C9 (amended): every published value is the sentinel 9999, a fixed
test-mode value, or the truncation of a reading; consequently, whenever
every successful reading of the registry is non-negative, every value
written during update() is non-negative.  Sub-zero readings, however, are
published as their (negative) truncations. -/
theorem update_writes_nonneg_of_nonneg_readings (b : Bool) (ds : List Device)
    (discovery : Except String (List Device))
    (h : ∀ d ∈ ds, ∀ q, d.getTemperature = Except.ok q → 0 ≤ q) :
    ((writesOf (update b discovery ⟨some ds, []⟩).2.trace).all
      fun w => decide (0 ≤ w.2)) = true := by
  rw [List.all_eq_true]
  suffices hsuf : ∀ w ∈ writesOf (update b discovery ⟨some ds, []⟩).2.trace, 0 ≤ w.2 by
    intro w hw
    exact decide_eq_true (hsuf w hw)
  intro w hw
  cases b with
  | true =>
    rw [show (update true discovery ⟨some ds, []⟩).2.trace = testEvents by
      simp [update, testEvents, St.emit]] at hw
    have : w = ("318.1.1.1.2.2.2.0", (99 : Int)) ∨ w = ("9.9.13.1.3.1.3.1", (97 : Int)) ∨
        w = ("9.9.13.1.3.1.3.2", (98 : Int)) ∨ w = ("9.9.13.1.3.1.3.3", (99 : Int)) := by
      simpa [testEvents, writesOf, List.filterMap_cons] using hw
    rcases this with rfl | rfl | rfl | rfl <;> decide
  | false =>
    rcases reads_dichotomy ds with ⟨qs, hqs⟩ | ⟨ds1, qs1, d, e, ds2, hsp, hok1, herr⟩
    · cases qs with
      | nil =>
        have hds : ds = [] := by
          cases ds with
          | nil => rfl
          | cons d0 ds0 => simp at hqs
        subst hds
        rw [update_noDevices ⟨some [], []⟩ discovery rfl] at hw
        simp only [writesOf_cons_lockAcquire, writesOf_cons_lockRelease,
          List.nil_append, writesOf_failTail] at hw
        simp only [List.mem_cons, List.not_mem_nil, or_false] at hw
        rcases hw with rfl | rfl | rfl | rfl <;> decide
      | cons x xs =>
        have hmax : pyMax (x :: xs) = Except.ok (xs.foldl max x) := rfl
        have hqnn : ∀ q ∈ x :: xs, 0 ≤ q := by
          intro q hq
          obtain ⟨d, hd, hgt⟩ := map_ok_mem_rev ds (x :: xs) hqs q hq
          exact h d hd q hgt
        rw [update_success ⟨some ds, []⟩ ds (x :: xs) (xs.foldl max x) discovery rfl
          hqs hmax] at hw
        simp only [writesOf_append, writesOf_cons_lockAcquire, writesOf_cons_addInt,
          writesOf_readEvents, writesOf_perAddEvents, writesOf_cons_lockRelease,
          writesOf_nil, List.nil_append, List.append_nil] at hw
        rcases List.mem_cons.mp hw with hw1 | hw2
        · obtain ⟨hmem, hle⟩ := pyMax_spec x xs (xs.foldl max x) hmax
          rw [hw1]
          exact pyInt_nonneg (xs.foldl max x) (hqnn (xs.foldl max x) hmem)
        · obtain ⟨t, ht, hv⟩ := perWritesList_val ((x :: xs).take 3) 1 w hw2
          rw [hv]
          exact pyInt_nonneg t (hqnn t (List.mem_of_mem_take ht))
    · subst hsp
      rw [update_readError ⟨some (ds1 ++ d :: ds2), []⟩ ds1 qs1 d e ds2 discovery rfl
        hok1 herr] at hw
      simp only [writesOf_append, writesOf_cons_lockAcquire, writesOf_cons_readTemp,
        writesOf_cons_lockRelease, writesOf_readEvents, writesOf_failTail,
        List.nil_append, List.append_nil] at hw
      simp only [List.mem_cons, List.not_mem_nil, or_false] at hw
      rcases hw with rfl | rfl | rfl | rfl <;> decide

/-- Witness for C9 (amended): one device reading 21; every write of the cycle
is non-negative. -/
theorem update_writes_nonneg_witness :
    ((writesOf (update false (Except.ok []) ⟨some [okDevice 21], []⟩).2.trace).all
      fun w => decide (0 ≤ w.2)) = true :=
  update_writes_nonneg_of_nonneg_readings false [okDevice 21] (Except.ok [])
    (by
      intro d hd q hq
      rw [List.mem_singleton] at hd
      subst hd
      simp only [okDevice] at hq
      injection hq with h21
      rw [← h21]
      decide)

/-- C4 (refuting counterexample): over an empty registry all (zero) reads
vacuously succeed, yet the cycle writes three per-device OIDs (the sentinel
path fires on max() of the empty batch), not exactly N = 0 of them. -/
theorem update_empty_registry_cex :
    (update false (Except.ok []) ⟨some [], []⟩).1 = Except.ok () ∧
    writesOf (update false (Except.ok []) ⟨some [], []⟩).2.trace =
      [("318.1.1.1.2.2.2.0", ERROR_TEMPERATURE), ("9.9.13.1.3.1.3.1", ERROR_TEMPERATURE),
       ("9.9.13.1.3.1.3.2", ERROR_TEMPERATURE), ("9.9.13.1.3.1.3.3", ERROR_TEMPERATURE)] := by
  decide
